import Mathlib

/-!
# esp-libopus: tiered allocation and the thread-local pseudostack registry

A shallow embedding of `custom/custom_support.h` (`opus_alloc`) and of
`custom/thread_local_stack.c` (`pseudostack_destructor`, `init_pthread_key`,
`get_thread_local_pseudostack`, `cleanup_thread_pseudostack`).

The C code runs on top of three platform services that are not part of the
repository: the ESP-IDF capability heap (`heap_caps_malloc`, `heap_caps_free`),
pthread thread-specific data (`pthread_once`, `pthread_key_create`,
`pthread_getspecific`, `pthread_setspecific`) and FreeRTOS task handles.
Their *answers* are inputs of the model (`Env`); their *effects* are recorded
in an explicit state (`State`), together with ghost bookkeeping (how often
every allocation has been freed, for which thread it was registered, how
often the key was created, in which order slots were written and blocks
freed) that the theorems talk about.
-/

namespace OpusTls

/-! ## Platform vocabulary -/

/-- A C pointer; `0` is `NULL`. -/
abbrev Ptr := Nat

/-- Identity of a thread (FreeRTOS task running the caller). -/
abbrev Thread := Nat

/-- A `TaskHandle_t`: `none` is `NULL`, `some t` is the handle of task `t`
(the handle of a running task is never `NULL`). -/
abbrev TaskHandle_t := Option Thread

/-- A capability mask passed to `heap_caps_malloc`. -/
abbrev Caps := Nat

/-- Capability bit from ESP-IDF `esp_heap_caps.h` (`1<<2`). -/
def MALLOC_CAP_8BIT : Caps := 4

/-- Capability bit from ESP-IDF `esp_heap_caps.h` (`1<<10`). -/
def MALLOC_CAP_SPIRAM : Caps := 1024

/-- Capability bit from ESP-IDF `esp_heap_caps.h` (`1<<11`). -/
def MALLOC_CAP_INTERNAL : Caps := 2048

/-- The struct `thread_local_pseudostack_t` of `thread_local_stack.h`. -/
structure thread_local_pseudostack_t where
  scratch_ptr : Ptr
  global_stack : Ptr
  initialized : Bool
  owner_task : TaskHandle_t
deriving DecidableEq, Repr

/-- Bytes of `sizeof(thread_local_pseudostack_t)` on the 32-bit targets
(two pointers, a padded `bool`, a task handle). Only `0 < sizeof` matters. -/
def sizeof_thread_local_pseudostack_t : Nat := 16

/-- What `memset(p, 0, sizeof *p)` leaves in the struct. -/
def zeroed : thread_local_pseudostack_t :=
  { scratch_ptr := 0, global_stack := 0, initialized := false, owner_task := none }

/-- The diagnostics the code emits through `ESP_LOGx`. -/
inductive Diag where
  | D_key_created
  | E_key_create_failed (ret : Int)
  | E_tls_init_failed
  | E_struct_alloc_failed
  | E_setspecific_failed (ret : Int)
  | D_thread_initialized (self : Thread)
  | W_only_current_thread
  | D_manually_freed
  | D_auto_freed
deriving DecidableEq, Repr

/-- Ghost record of one successful `heap_caps_malloc`: where the block lies,
how many `heap_caps_free` calls have hit it, and the thread in whose TLS slot
it was stored by a successful `pthread_setspecific` (if any). -/
structure Block where
  addr : Ptr
  size : Nat
  frees : Nat
  owner : Option Thread
deriving DecidableEq, Repr

/-- Ghost record of one call that releases or rebinds memory: a write of value
`v` into the TLS slot of thread `self`, or `heap_caps_free(p)` with a non-null
`p`. Allocations are already ordered by the block history; these calls are
not, so their order is kept in `State.calls`. -/
inductive Call where
  | setspecific (self : Thread) (v : Ptr)
  | free (p : Ptr)
deriving DecidableEq, Repr

/-- Answers of the platform during one call into the code: what
`heap_caps_malloc(size, caps)` returns in the present state of the pools
(`0` = the request cannot be served), the return code of
`pthread_key_create` and the return code of `pthread_setspecific` when a
non-null value is stored. -/
structure Env where
  malloc : Nat → Caps → Ptr
  key_create : Int
  setspecific : Int

/-- Global state: the three file-level statics of `thread_local_stack.c`
(`init_once`, `tls_initialized`, and the per-thread values of
`opus_pseudostack_key`), the memory holding the structs, and the ghost
history of the heap, of thread exits, of diagnostics and of the slot writes
and frees in the order in which the code made them (oldest first). -/
structure State where
  once_done : Bool
  tls_initialized : Bool
  key_creates : Nat
  tls : Thread → Ptr
  mem : Ptr → thread_local_pseudostack_t
  blocks : List Block
  wild_frees : Nat
  exited : List Thread
  log : List Diag
  calls : List Call

/-- State at program start: statics zero-initialised, nothing allocated. -/
def init : State :=
  { once_done := false, tls_initialized := false, key_creates := 0,
    tls := fun _ => 0, mem := fun _ => zeroed, blocks := [], wild_frees := 0,
    exited := [], log := [], calls := [] }

/-- Pointwise update of a function. -/
def upd {β : Type} (f : Nat → β) (k : Nat) (v : β) : Nat → β :=
  fun x => if x = k then v else f x

/-- An `ESP_LOGx` call. -/
def esp_log (s : State) (d : Diag) : State :=
  { s with log := s.log ++ [d] }

/-! ## The capability heap -/

/-- The platform call `heap_caps_malloc(size, caps)`: returns the platform's answer and
records a successful allocation as the newest block. -/
def heap_caps_malloc (s : State) (env : Env) (size : Nat) (caps : Caps) : Ptr × State :=
  let p := env.malloc size caps
  (p, if p = 0 then s else { s with blocks := ⟨p, size, 0, none⟩ :: s.blocks })

/-- Count a free against the newest allocation that starts at `p`;
`none` when no allocation ever started there. -/
def freeIn : List Block → Ptr → Option (List Block)
  | [], _ => none
  | b :: bs, p =>
    if b.addr = p then some ({ b with frees := b.frees + 1 } :: bs)
    else (freeIn bs p).map (fun r => b :: r)

/-- The platform call `heap_caps_free(ptr)`: freeing `NULL` does nothing; otherwise the free
is counted against the allocation it hits (or as a wild free) and appended to
the call history. -/
def heap_caps_free (s : State) (p : Ptr) : State :=
  if p = 0 then s
  else match freeIn s.blocks p with
    | some bs => { s with blocks := bs, calls := s.calls ++ [Call.free p] }
    | none => { s with wild_frees := s.wild_frees + 1, calls := s.calls ++ [Call.free p] }

/-! ## custom_support.h -/

/-- The function `opus_alloc` (custom_support.h, lines 15-28). -/
def opus_alloc (s : State) (env : Env) (size : Nat) : Ptr × State :=
  let r := heap_caps_malloc s env size MALLOC_CAP_SPIRAM
  if r.1 = 0 then
    heap_caps_malloc r.2 env size (MALLOC_CAP_INTERNAL ||| MALLOC_CAP_8BIT)
  else r

/-! ## thread_local_stack.c -/

/-- The platform call `pthread_getspecific(opus_pseudostack_key)` in thread `self`. -/
def pthread_getspecific (s : State) (self : Thread) : Ptr :=
  s.tls self

/-- Effect of a successful `pthread_setspecific(opus_pseudostack_key, v)` in
thread `self`: the slot holds `v`, and the write is appended to the call
history. -/
def pthread_setspecific (s : State) (self : Thread) (v : Ptr) : State :=
  { s with tls := upd s.tls self v, calls := s.calls ++ [Call.setspecific self v] }

/-- Ghost step: remember that the newest block now sits in the slot of `self`. -/
def mark_owner (bs : List Block) (self : Thread) : List Block :=
  match bs with
  | [] => []
  | b :: rest => { b with owner := some self } :: rest

/-- The function `pseudostack_destructor` (thread_local_stack.c, lines 20-31). -/
def pseudostack_destructor (s : State) (data : Ptr) : State :=
  if data ≠ 0 then
    let s1 :=
      if (s.mem data).scratch_ptr ≠ 0 then
        esp_log (heap_caps_free s (s.mem data).scratch_ptr) Diag.D_auto_freed
      else s
    heap_caps_free s1 data
  else s

/-- The function `init_pthread_key` (lines 34-43); `ret` is what `pthread_key_create`
returns. -/
def init_pthread_key (s : State) (ret : Int) : State :=
  let s1 := { s with key_creates := s.key_creates + 1 }
  if ret = 0 then
    esp_log { s1 with tls_initialized := true } Diag.D_key_created
  else
    esp_log s1 (Diag.E_key_create_failed ret)

/-- The call `pthread_once(&init_once, init_pthread_key)`, sequentially: the routine runs
on the first call only. -/
def pthread_once (s : State) (ret : Int) : State :=
  if s.once_done then s
  else init_pthread_key { s with once_done := true } ret

/-- The function `get_thread_local_pseudostack` (lines 45-85), called in thread `self`. -/
def get_thread_local_pseudostack (s : State) (self : Thread) (env : Env) : Ptr × State :=
  let s0 := pthread_once s env.key_create
  if !s0.tls_initialized then
    (0, esp_log s0 Diag.E_tls_init_failed)
  else
    let pseudostack := pthread_getspecific s0 self
    if pseudostack = 0 then
      let r := heap_caps_malloc s0 env sizeof_thread_local_pseudostack_t MALLOC_CAP_INTERNAL
      if r.1 = 0 then
        (0, esp_log r.2 Diag.E_struct_alloc_failed)
      else
        let s1 := { r.2 with
          mem := upd r.2.mem r.1 { zeroed with owner_task := some self, initialized := true } }
        if env.setspecific ≠ 0 then
          (0, heap_caps_free (esp_log s1 (Diag.E_setspecific_failed env.setspecific)) r.1)
        else
          let s2 := pthread_setspecific s1 self r.1
          (r.1, esp_log { s2 with blocks := mark_owner s2.blocks self }
                  (Diag.D_thread_initialized self))
    else
      (pseudostack, s0)

/-- The function `cleanup_thread_pseudostack` (lines 87-120), called in thread `self`. -/
def cleanup_thread_pseudostack (s : State) (self : Thread) (task : TaskHandle_t) : State :=
  if task ≠ none ∧ task ≠ some self then
    esp_log s Diag.W_only_current_thread
  else if !s.tls_initialized then
    s
  else
    let pseudostack := pthread_getspecific s self
    if pseudostack ≠ 0 then
      let s1 := pthread_setspecific s self 0
      let s2 :=
        if (s1.mem pseudostack).scratch_ptr ≠ 0 then
          esp_log (heap_caps_free s1 (s1.mem pseudostack).scratch_ptr) Diag.D_manually_freed
        else s1
      heap_caps_free s2 pseudostack
    else s

/-- Termination of thread `t`. This is done by the pthread runtime of the
platform, not by code of the repository: the destructor registered with the
key runs on the thread's slot value exactly when that value is non-null (the
slot is cleared first, as POSIX prescribes), and the thread is remembered as
gone. -/
def thread_exit (s : State) (t : Thread) : State :=
  let v := pthread_getspecific s t
  let s1 := { pthread_setspecific s t 0 with exited := t :: s.exited }
  if v ≠ 0 then pseudostack_destructor s1 v else s1

/-! ## Traces -/

/-- One call into the core, with the thread that makes it. -/
inductive Op where
  | get (self : Thread) (env : Env)
  | cleanup (self : Thread) (task : TaskHandle_t)
  | exit (self : Thread)

/-- The thread performing an operation. -/
def Op.thread : Op → Thread
  | .get t _ => t
  | .cleanup t _ => t
  | .exit t => t

/-- State after one operation. -/
def step (s : State) : Op → State
  | .get t env => (get_thread_local_pseudostack s t env).2
  | .cleanup t task => cleanup_thread_pseudostack s t task
  | .exit t => thread_exit s t

/-- State after a sequence of operations. -/
def run (s : State) (ops : List Op) : State :=
  ops.foldl step s

/-- An operation other than a manual cleanup or the exit of thread `t`. -/
def Op.keeps (t : Thread) : Op → Prop
  | .get _ _ => True
  | .cleanup u _ => u ≠ t
  | .exit u => u ≠ t

instance (t : Thread) : (o : Op) → Decidable (o.keeps t)
  | .get _ _ => inferInstanceAs (Decidable True)
  | .cleanup u _ => inferInstanceAs (Decidable (u ≠ t))
  | .exit u => inferInstanceAs (Decidable (u ≠ t))

/-! ## Concrete platforms and traces -/

/-- A platform that serves every allocation at address `p` and on which every
pthread call succeeds. -/
def env_at (p : Ptr) : Env :=
  { malloc := fun _ _ => p, key_create := 0, setspecific := 0 }

/-- A platform on which only the SPIRAM pool can serve requests. -/
def env_spiram_only : Env :=
  { malloc := fun _ caps => if caps = MALLOC_CAP_SPIRAM then 0x3C000000 else 0,
    key_create := 0, setspecific := 0 }

/-- A platform on which the heap serves at `p` and `pthread_setspecific`
reports `ENOMEM`. -/
def env_setspecific_enomem (p : Ptr) : Env :=
  { malloc := fun _ _ => p, key_create := 0, setspecific := 12 }

/-- A platform on which `pthread_key_create` reports `ENOMEM`. -/
def env_key_enomem : Env :=
  { malloc := fun _ _ => 0x3FFB0000, key_create := 12, setspecific := 0 }

/-- Thread 1 has acquired its handle at `0x3FFB0000`. -/
def ready_state : State :=
  run init [Op.get 1 (env_at 0x3FFB0000)]

/-- Thread 1 holds its handle, and the codec has stored a buffer obtained from
`opus_alloc` in its `scratch_ptr`. -/
def buffered_state : State :=
  { (opus_alloc ready_state (env_at 0x3C000000) 120000).2 with
    mem := upd ready_state.mem 0x3FFB0000
      { scratch_ptr := 0x3C000000, global_stack := 0, initialized := true,
        owner_task := some 1 } }

/-- Two threads acquire handles, thread 1 cleans up by hand, both exit. -/
def two_thread_trace : List Op :=
  [Op.get 1 (env_at 0x3FFB0000), Op.get 2 (env_at 0x3FFB0010), Op.get 1 (env_at 0),
   Op.cleanup 1 none, Op.exit 1, Op.exit 2]

/-- Two threads acquire handles and keep them. -/
def two_holders_trace : List Op :=
  [Op.get 1 (env_at 0x3FFB0000), Op.get 2 (env_at 0x3FFB0010)]

/-- A pool state in which SPIRAM has no capacity and internal memory serves. -/
def env_spiram_empty : Env :=
  { malloc := fun _ caps => if caps = MALLOC_CAP_SPIRAM then 0 else 0x3FFB0000,
    key_create := 0, setspecific := 0 }

/-! ## Predicates on states and traces -/

/-- The situation after a failed key creation: the once-control is used up,
the flag is still false, and nothing was ever allocated or registered. -/
def SetupFailed (s : State) : Prop :=
  s.once_done = true ∧ s.tls_initialized = false ∧ s.key_creates = 1 ∧
  s.blocks = [] ∧ s.wild_frees = 0 ∧ ∀ u, s.tls u = 0

/-- The byte range `[p, p + size)` meets no block that is still allocated. -/
def Fresh (bs : List Block) (p : Ptr) (size : Nat) : Prop :=
  ∀ b ∈ bs, b.frees = 0 → p + size ≤ b.addr ∨ b.addr + b.size ≤ p

instance (bs : List Block) (p : Ptr) (size : Nat) : Decidable (Fresh bs p size) :=
  inferInstanceAs (Decidable (∀ b ∈ bs, b.frees = 0 → p + size ≤ b.addr ∨ b.addr + b.size ≤ p))

/-- An operation as the platform can produce it in state `s`: the calling
thread has not exited, and the allocator never hands out memory that
overlaps a block that is still allocated. -/
def Op.valid (s : State) : Op → Prop
  | .get t env =>
    t ∉ s.exited ∧
    (env.malloc sizeof_thread_local_pseudostack_t MALLOC_CAP_INTERNAL ≠ 0 →
      Fresh s.blocks (env.malloc sizeof_thread_local_pseudostack_t MALLOC_CAP_INTERNAL)
        sizeof_thread_local_pseudostack_t)
  | .cleanup t _ => t ∉ s.exited
  | .exit t => t ∉ s.exited

instance (s : State) : (o : Op) → Decidable (o.valid s)
  | .get t env =>
    inferInstanceAs (Decidable (t ∉ s.exited ∧
      (env.malloc sizeof_thread_local_pseudostack_t MALLOC_CAP_INTERNAL ≠ 0 →
        Fresh s.blocks (env.malloc sizeof_thread_local_pseudostack_t MALLOC_CAP_INTERNAL)
          sizeof_thread_local_pseudostack_t)))
  | .cleanup t _ => inferInstanceAs (Decidable (t ∉ s.exited))
  | .exit t => inferInstanceAs (Decidable (t ∉ s.exited))

/-- A sequence of operations each of which is valid where it happens. -/
def Valid : State → List Op → Prop
  | _, [] => True
  | s, o :: ops => o.valid s ∧ Valid (step s o) ops

/-- Validity of a trace can be computed. -/
def Valid.dec : (s : State) → (ops : List Op) → Decidable (Valid s ops)
  | _, [] => isTrue trivial
  | s, o :: ops =>
    @instDecidableAnd (o.valid s) (Valid (step s o) ops) inferInstance
      (Valid.dec (step s o) ops)

instance (s : State) (ops : List Op) : Decidable (Valid s ops) := Valid.dec s ops

/-- Relation between a newer block `a` and an older block `b`: while `b` is
allocated the two do not overlap. -/
def Apart (a b : Block) : Prop :=
  b.frees = 0 → a.addr + a.size ≤ b.addr ∨ b.addr + b.size ≤ a.addr

/-- The handle structure as `get_thread_local_pseudostack` leaves it for
thread `t`. -/
def fresh_handle (t : Thread) : thread_local_pseudostack_t :=
  { scratch_ptr := 0, global_stack := 0, initialized := true, owner_task := some t }

/-- The invariant of reachable states. -/
structure Inv (s : State) : Prop where
  slot : ∀ t, s.tls t ≠ 0 →
    s.tls_initialized = true ∧ t ∉ s.exited ∧ s.mem (s.tls t) = fresh_handle t ∧
    (⟨s.tls t, sizeof_thread_local_pseudostack_t, 0, some t⟩ : Block) ∈ s.blocks
  block : ∀ b ∈ s.blocks,
    b.addr ≠ 0 ∧ b.size = sizeof_thread_local_pseudostack_t ∧ b.frees ≤ 1 ∧
    (b.frees = 0 → ∃ t, b.owner = some t ∧ s.tls t = b.addr)
  apart : s.blocks.Pairwise Apart
  wild : s.wild_frees = 0

/-- Blocks that are allocated and registered for `t`. -/
def registered_live (s : State) (t : Thread) : List Block :=
  s.blocks.filter (fun b => decide (b.frees = 0 ∧ b.owner = some t))

/-! ## Basic facts -/

theorem run_nil (s : State) : run s [] = s := rfl

theorem run_cons (s : State) (o : Op) (ops : List Op) :
    run s (o :: ops) = run (step s o) ops := rfl

theorem upd_same {β : Type} (f : Nat → β) (k : Nat) (v : β) : upd f k v k = v := by
  simp [upd]

theorem upd_other {β : Type} (f : Nat → β) (k x : Nat) (v : β) (h : x ≠ k) :
    upd f k v x = f x := by
  simp [upd, h]

/-- A free touches nothing but the heap bookkeeping. -/
theorem heap_caps_free_frame (s : State) (p : Ptr) :
    (heap_caps_free s p).once_done = s.once_done ∧
    (heap_caps_free s p).tls_initialized = s.tls_initialized ∧
    (heap_caps_free s p).key_creates = s.key_creates ∧
    (heap_caps_free s p).tls = s.tls ∧
    (heap_caps_free s p).mem = s.mem ∧
    (heap_caps_free s p).exited = s.exited ∧
    (heap_caps_free s p).log = s.log := by
  unfold heap_caps_free
  split_ifs
  · simp
  · split <;> simp

@[simp] theorem heap_caps_free_once_done (s : State) (p : Ptr) :
    (heap_caps_free s p).once_done = s.once_done := (heap_caps_free_frame s p).1

@[simp] theorem heap_caps_free_tls_initialized (s : State) (p : Ptr) :
    (heap_caps_free s p).tls_initialized = s.tls_initialized := (heap_caps_free_frame s p).2.1

@[simp] theorem heap_caps_free_key_creates (s : State) (p : Ptr) :
    (heap_caps_free s p).key_creates = s.key_creates := (heap_caps_free_frame s p).2.2.1

@[simp] theorem heap_caps_free_tls (s : State) (p : Ptr) :
    (heap_caps_free s p).tls = s.tls := (heap_caps_free_frame s p).2.2.2.1

@[simp] theorem heap_caps_free_mem (s : State) (p : Ptr) :
    (heap_caps_free s p).mem = s.mem := (heap_caps_free_frame s p).2.2.2.2.1

@[simp] theorem heap_caps_free_exited (s : State) (p : Ptr) :
    (heap_caps_free s p).exited = s.exited := (heap_caps_free_frame s p).2.2.2.2.2.1

@[simp] theorem heap_caps_free_log (s : State) (p : Ptr) :
    (heap_caps_free s p).log = s.log := (heap_caps_free_frame s p).2.2.2.2.2.2

/-! ## C1: the tiered allocator -/

/-- C1: `opus_alloc(size)` returns the block given by the SPIRAM pool when that
allocation succeeds, otherwise the result of the internal 8-bit pool; it
returns null exactly when both pool allocations fail; when the SPIRAM pool
cannot serve and the internal pool can, the result is the non-null block of
the internal pool. The only effect is the bookkeeping of the returned block. -/
theorem opus_alloc_tiered (s : State) (env : Env) (size : Nat) :
    (env.malloc size MALLOC_CAP_SPIRAM ≠ 0 →
      (opus_alloc s env size).1 = env.malloc size MALLOC_CAP_SPIRAM) ∧
    (env.malloc size MALLOC_CAP_SPIRAM = 0 →
      (opus_alloc s env size).1
        = env.malloc size (MALLOC_CAP_INTERNAL ||| MALLOC_CAP_8BIT)) ∧
    ((opus_alloc s env size).1 = 0 ↔
      env.malloc size MALLOC_CAP_SPIRAM = 0 ∧
      env.malloc size (MALLOC_CAP_INTERNAL ||| MALLOC_CAP_8BIT) = 0) ∧
    (env.malloc size MALLOC_CAP_SPIRAM = 0 →
      env.malloc size (MALLOC_CAP_INTERNAL ||| MALLOC_CAP_8BIT) ≠ 0 →
      (opus_alloc s env size).1 ≠ 0 ∧
      (opus_alloc s env size).1
        = env.malloc size (MALLOC_CAP_INTERNAL ||| MALLOC_CAP_8BIT)) ∧
    ((opus_alloc s env size).1 = 0 → (opus_alloc s env size).2 = s) ∧
    ((opus_alloc s env size).1 ≠ 0 →
      (opus_alloc s env size).2
        = { s with blocks := ⟨(opus_alloc s env size).1, size, 0, none⟩ :: s.blocks }) := by
  by_cases h1 : env.malloc size MALLOC_CAP_SPIRAM = 0
  · by_cases h2 : env.malloc size (MALLOC_CAP_INTERNAL ||| MALLOC_CAP_8BIT) = 0
    · simp [opus_alloc, heap_caps_malloc, h1, h2]
    · simp [opus_alloc, heap_caps_malloc, h1, h2]
  · simp [opus_alloc, heap_caps_malloc, h1]

/-- C1 at a concrete pool state: `opus_alloc(1024)` with an empty SPIRAM pool
returns the block of the internal pool. -/
theorem opus_alloc_tiered_witness :
    (opus_alloc init env_spiram_empty 1024).1 ≠ 0 ∧
    (opus_alloc init env_spiram_empty 1024).1
      = env_spiram_empty.malloc 1024 (MALLOC_CAP_INTERNAL ||| MALLOC_CAP_8BIT) :=
  (opus_alloc_tiered init env_spiram_empty 1024).2.2.2.1 (by decide) (by decide)

/-! ## C6: cleanup aimed at another thread -/

/-- C6: `cleanup_thread_pseudostack(B)` called from thread `A ≠ B` is rejected:
the state is the old one with one warning diagnostic appended, so nothing is
freed and no registry slot or handle changes. -/
theorem cleanup_foreign_rejected (s : State) (A B : Thread) (h : A ≠ B) :
    cleanup_thread_pseudostack s A (some B)
      = { s with log := s.log ++ [Diag.W_only_current_thread] } ∧
    (cleanup_thread_pseudostack s A (some B)).blocks = s.blocks ∧
    (cleanup_thread_pseudostack s A (some B)).wild_frees = s.wild_frees ∧
    (cleanup_thread_pseudostack s A (some B)).tls = s.tls ∧
    (cleanup_thread_pseudostack s A (some B)).mem = s.mem := by
  have hne : B ≠ A := fun e => h e.symm
  simp [cleanup_thread_pseudostack, esp_log, hne]

/-! ## C2: repeated acquisition -/

/-- With the key in place and a handle in the caller's slot, the call returns
that handle and changes nothing. -/
theorem get_existing (s : State) (t : Thread) (env : Env)
    (h1 : s.once_done = true) (h2 : s.tls_initialized = true) (h3 : s.tls t ≠ 0) :
    get_thread_local_pseudostack s t env = (s.tls t, s) := by
  simp [get_thread_local_pseudostack, pthread_once, pthread_getspecific, h1, h2, h3]

/-- After a call that returned a handle, setup is done and the handle sits in
the caller's slot. -/
theorem get_nonnull_post (s : State) (t : Thread) (env : Env)
    (h : (get_thread_local_pseudostack s t env).1 ≠ 0) :
    (get_thread_local_pseudostack s t env).2.once_done = true ∧
    (get_thread_local_pseudostack s t env).2.tls_initialized = true ∧
    (get_thread_local_pseudostack s t env).2.tls t
      = (get_thread_local_pseudostack s t env).1 := by
  revert h
  simp only [get_thread_local_pseudostack, pthread_once, init_pthread_key, esp_log,
    pthread_getspecific, pthread_setspecific, heap_caps_malloc]
  split_ifs <;> simp_all [upd]

/-- Setup flags and the slot of `t` survive every operation that is not a
release by `t`. -/
theorem step_keeps_slot (s : State) (t : Thread) (o : Op) (ho : o.keeps t)
    (h1 : s.once_done = true) (h2 : s.tls_initialized = true) (h3 : s.tls t ≠ 0) :
    (step s o).once_done = true ∧ (step s o).tls_initialized = true ∧
    (step s o).tls t = s.tls t := by
  cases o with
  | get u env =>
    by_cases hu : u = t
    · subst hu
      simp [step, get_existing s u env h1 h2 h3, h1, h2]
    · have hne : t ≠ u := fun e => hu e.symm
      simp only [step, get_thread_local_pseudostack, pthread_once, init_pthread_key, esp_log,
        pthread_getspecific, pthread_setspecific, heap_caps_malloc]
      split_ifs <;> simp_all [upd]
  | cleanup u task =>
    have hu : u ≠ t := ho
    have hne : t ≠ u := fun e => hu e.symm
    simp only [step, cleanup_thread_pseudostack, esp_log,
      pthread_getspecific, pthread_setspecific]
    split_ifs <;> simp_all [upd]
  | exit u =>
    have hu : u ≠ t := ho
    have hne : t ≠ u := fun e => hu e.symm
    simp only [step, thread_exit, pseudostack_destructor, esp_log,
      pthread_getspecific, pthread_setspecific]
    split_ifs <;> simp_all [upd]

/-- The same over a sequence of operations. -/
theorem run_keeps_slot (ops : List Op) (t : Thread) (s : State)
    (hops : ∀ o ∈ ops, o.keeps t)
    (h1 : s.once_done = true) (h2 : s.tls_initialized = true) (h3 : s.tls t ≠ 0) :
    (run s ops).once_done = true ∧ (run s ops).tls_initialized = true ∧
    (run s ops).tls t = s.tls t := by
  induction ops generalizing s with
  | nil => exact ⟨h1, h2, rfl⟩
  | cons o ops ih =>
    have hs := step_keeps_slot s t o (hops o (List.mem_cons_self _ _)) h1 h2 h3
    have hr := ih (step s o) (fun x hx => hops x (List.mem_cons_of_mem _ hx))
      hs.1 hs.2.1 (by rw [hs.2.2]; exact h3)
    rw [run_cons]
    exact ⟨hr.1, hr.2.1, by rw [hr.2.2, hs.2.2]⟩

/-- C2: if `get_thread_local_pseudostack()` called from thread `t` returns a
non-null handle, then a later call from `t`, with no cleanup by `t` and no exit
of `t` in between (other threads may do anything), returns the identical
pointer and leaves the whole state (registry, heap, memory) unchanged. -/
theorem get_twice_same_handle (s : State) (t : Thread) (env : Env)
    (h : (get_thread_local_pseudostack s t env).1 ≠ 0)
    (ops : List Op) (hops : ∀ o ∈ ops, o.keeps t) (env2 : Env) :
    get_thread_local_pseudostack
        (run (get_thread_local_pseudostack s t env).2 ops) t env2
      = ((get_thread_local_pseudostack s t env).1,
          run (get_thread_local_pseudostack s t env).2 ops) := by
  have hp := get_nonnull_post s t env h
  have hr := run_keeps_slot ops t _ hops hp.1 hp.2.1 (by rw [hp.2.2]; exact h)
  have h3 : (run (get_thread_local_pseudostack s t env).2 ops).tls t ≠ 0 := by
    rw [hr.2.2, hp.2.2]; exact h
  rw [get_existing _ t env2 hr.1 hr.2.1 h3, hr.2.2, hp.2.2]

/-! ## C5: failed one-time setup -/

theorem get_first_call_failed (t0 : Thread) (env0 : Env) (h : env0.key_create ≠ 0) :
    (get_thread_local_pseudostack init t0 env0).1 = 0 ∧
    SetupFailed (get_thread_local_pseudostack init t0 env0).2 := by
  simp [get_thread_local_pseudostack, pthread_once, init_pthread_key, esp_log, init, h,
    SetupFailed]

theorem get_setup_failed (s : State) (t : Thread) (env : Env) (hs : SetupFailed s) :
    (get_thread_local_pseudostack s t env).1 = 0 ∧
    SetupFailed (get_thread_local_pseudostack s t env).2 := by
  obtain ⟨h1, h2, h3, h4, h5, h6⟩ := hs
  simp [get_thread_local_pseudostack, pthread_once, esp_log, h1, h2, h3, h4, h5, h6,
    SetupFailed]

theorem step_setup_failed (s : State) (o : Op) (hs : SetupFailed s) :
    SetupFailed (step s o) := by
  cases o with
  | get t env => exact (get_setup_failed s t env hs).2
  | cleanup t task =>
    obtain ⟨h1, h2, h3, h4, h5, h6⟩ := hs
    simp only [step, cleanup_thread_pseudostack, esp_log]
    split_ifs <;> simp_all [SetupFailed]
  | exit t =>
    obtain ⟨h1, h2, h3, h4, h5, h6⟩ := hs
    simp only [step, thread_exit, pthread_getspecific, pthread_setspecific]
    simp only [h6, ne_eq, not_true_eq_false, if_false]
    refine ⟨h1, h2, h3, h4, h5, ?_⟩
    intro u
    simp only [upd]
    split_ifs
    · rfl
    · exact h6 u

theorem run_setup_failed (ops : List Op) (s : State) (hs : SetupFailed s) :
    SetupFailed (run s ops) := by
  induction ops generalizing s with
  | nil => exact hs
  | cons o ops ih => exact ih (step s o) (step_setup_failed s o hs)

/-- C5: if the creation of the TLS key fails on the first call, that call
returns null, and after every later sequence of operations by any threads
every `get_thread_local_pseudostack()` returns null, no block has been
allocated, no slot holds a handle, and `pthread_key_create` has been called
exactly once (it is never attempted again). -/
theorem setup_failure_is_permanent (t0 : Thread) (env0 : Env) (h : env0.key_create ≠ 0)
    (ops : List Op) (t : Thread) (env : Env) :
    (get_thread_local_pseudostack init t0 env0).1 = 0 ∧
    (get_thread_local_pseudostack
      (run (get_thread_local_pseudostack init t0 env0).2 ops) t env).1 = 0 ∧
    (get_thread_local_pseudostack
      (run (get_thread_local_pseudostack init t0 env0).2 ops) t env).2.blocks = [] ∧
    (∀ u, (get_thread_local_pseudostack
      (run (get_thread_local_pseudostack init t0 env0).2 ops) t env).2.tls u = 0) ∧
    (get_thread_local_pseudostack
      (run (get_thread_local_pseudostack init t0 env0).2 ops) t env).2.key_creates = 1 ∧
    (get_thread_local_pseudostack
      (run (get_thread_local_pseudostack init t0 env0).2 ops) t env).2.tls_initialized
        = false := by
  have h0 := get_first_call_failed t0 env0 h
  have hr := run_setup_failed ops _ h0.2
  have hg := get_setup_failed _ t env hr
  obtain ⟨g1, g2, g3, g4, g5, g6⟩ := hg.2
  exact ⟨h0.1, hg.1, g4, g6, g3, g2⟩

/-! ## Well-formed traces and the heap invariant -/

theorem init_inv : Inv init := by
  constructor <;> simp [init]

/-- Where `freeIn` lands: at the first block that starts at `p`. -/
theorem freeIn_spec (bs : List Block) (p : Ptr) (h : ∃ b ∈ bs, b.addr = p) :
    ∃ pre b post, bs = pre ++ b :: post ∧ b.addr = p ∧ (∀ x ∈ pre, x.addr ≠ p) ∧
      freeIn bs p = some (pre ++ { b with frees := b.frees + 1 } :: post) := by
  induction bs with
  | nil => simp at h
  | cons a bs ih =>
    by_cases ha : a.addr = p
    · exact ⟨[], a, bs, rfl, ha, by simp, by simp [freeIn, ha]⟩
    · have h2 : ∃ b ∈ bs, b.addr = p := by
        obtain ⟨b, hb, hbp⟩ := h
        rcases List.mem_cons.mp hb with e | e
        · exact absurd (e ▸ hbp) ha
        · exact ⟨b, e, hbp⟩
      obtain ⟨pre, b, post, e1, e2, e3, e4⟩ := ih h2
      refine ⟨a :: pre, b, post, by simp [e1], e2, ?_, ?_⟩
      · intro x hx
        rcases List.mem_cons.mp hx with e | e
        · exact e ▸ ha
        · exact e3 x e
      · simp [freeIn, ha, e4]

/-- The invariant reads only the registry, the memory and the heap history;
the setup flag may only have risen. -/
theorem Inv.transfer {s s' : State} (h : Inv s)
    (e1 : s'.tls = s.tls) (e2 : s.tls_initialized = true → s'.tls_initialized = true)
    (e3 : s'.exited = s.exited) (e4 : s'.mem = s.mem) (e5 : s'.blocks = s.blocks)
    (e6 : s'.wild_frees = s.wild_frees) : Inv s' := by
  constructor
  · intro t ht
    rw [e1] at ht
    obtain ⟨a1, a2, a3, a4⟩ := h.slot t ht
    rw [e1, e3, e4, e5]
    exact ⟨e2 a1, a2, a3, a4⟩
  · intro b hb
    rw [e5] at hb
    rw [e1]
    exact h.block b hb
  · rw [e5]; exact h.apart
  · rw [e6]; exact h.wild

theorem pthread_once_inv (s : State) (ret : Int) (h : Inv s) : Inv (pthread_once s ret) := by
  apply h.transfer <;>
    (simp only [pthread_once, init_pthread_key, esp_log]; split_ifs <;> simp)

theorem pthread_once_frame (s : State) (ret : Int) :
    (pthread_once s ret).tls = s.tls ∧ (pthread_once s ret).exited = s.exited ∧
    (pthread_once s ret).mem = s.mem ∧ (pthread_once s ret).blocks = s.blocks ∧
    (pthread_once s ret).wild_frees = s.wild_frees := by
  simp only [pthread_once, init_pthread_key, esp_log]
  split_ifs <;> simp

/-- Releasing the handle in the slot of `t`: slot cleared, structure freed. -/
theorem inv_release (s : State) (t : Thread) (h : Inv s) (ht : s.tls t ≠ 0) :
    Inv (heap_caps_free (pthread_setspecific s t 0) (s.tls t)) := by
  obtain ⟨hini, hex, hmem, hc⟩ := h.slot t ht
  obtain ⟨pre, b, post, e1, e2, e3, e4⟩ := freeIn_spec s.blocks (s.tls t) ⟨_, hc, rfl⟩
  have hpw := h.apart
  rw [e1] at hpw hc
  rw [List.pairwise_append] at hpw
  obtain ⟨hpre, hbpost, hcross⟩ := hpw
  rw [List.pairwise_cons] at hbpost
  obtain ⟨hb_post, hpost⟩ := hbpost
  have hblk : ∀ x ∈ pre ++ b :: post, _ := fun x hx => h.block x (by rw [e1]; exact hx)
  have hbblk := hblk b (by simp)
  have hbeq : b = ⟨s.tls t, sizeof_thread_local_pseudostack_t, 0, some t⟩ := by
    rcases List.mem_append.mp hc with hin | hin
    · exact absurd rfl (e3 _ hin)
    · rcases List.mem_cons.mp hin with hin | hin
      · exact hin.symm
      · have := hb_post _ hin rfl
        have hpos : 0 < sizeof_thread_local_pseudostack_t := by decide
        rw [e2, hbblk.2.1] at this
        exfalso
        simp only [Ptr] at this
        omega
  have hfree : heap_caps_free (pthread_setspecific s t 0) (s.tls t)
      = { pthread_setspecific s t 0 with
          blocks := pre ++ { b with frees := b.frees + 1 } :: post,
          calls := (pthread_setspecific s t 0).calls ++ [Call.free (s.tls t)] } := by
    simp [heap_caps_free, pthread_setspecific, ht, e4]
  rw [hfree]
  constructor
  · intro u hu
    simp only [pthread_setspecific, upd] at hu ⊢
    by_cases hut : u = t
    · simp [hut] at hu
    · simp only [hut, if_false] at hu ⊢
      obtain ⟨a1, a2, a3, a4⟩ := h.slot u hu
      refine ⟨a1, a2, a3, ?_⟩
      rw [e1] at a4
      rcases List.mem_append.mp a4 with hin | hin
      · exact List.mem_append_left _ hin
      · rcases List.mem_cons.mp hin with hin | hin
        · rw [hbeq] at hin
          simp only [Block.mk.injEq, Option.some.injEq] at hin
          exact absurd hin.2.2.2 hut
        · exact List.mem_append_right _ (List.mem_cons_of_mem _ hin)
  · intro x hx
    simp only [pthread_setspecific, upd] at hx ⊢
    have keep : ∀ y ∈ pre ++ b :: post, y.addr ≠ s.tls t →
        (y.addr ≠ 0 ∧ y.size = sizeof_thread_local_pseudostack_t ∧ y.frees ≤ 1 ∧
          (y.frees = 0 → ∃ u, y.owner = some u ∧ (if u = t then 0 else s.tls u) = y.addr)) := by
      intro y hy hne
      obtain ⟨b1, b2, b3, b4⟩ := hblk y hy
      refine ⟨b1, b2, b3, fun hz => ?_⟩
      obtain ⟨u, hu1, hu2⟩ := b4 hz
      refine ⟨u, hu1, ?_⟩
      have : u ≠ t := fun e => hne (by rw [← hu2, e])
      simp [this, hu2]
    rcases List.mem_append.mp hx with hin | hin
    · exact keep x (List.mem_append_left _ hin) (e3 x hin)
    · rcases List.mem_cons.mp hin with hin | hin
      · subst hin
        refine ⟨hbblk.1, hbblk.2.1, ?_, ?_⟩
        · rw [hbeq]
        · intro hz; simp at hz
      · by_cases hxa : x.addr = s.tls t
        · obtain ⟨b1, b2, b3, b4⟩ := hblk x (List.mem_append_right _ (List.mem_cons_of_mem _ hin))
          refine ⟨b1, b2, b3, fun hz => ?_⟩
          have := hb_post x hin hz
          have hpos : 0 < sizeof_thread_local_pseudostack_t := by decide
          rw [e2, hbblk.2.1, hxa, b2] at this
          exfalso
          simp only [Ptr] at this
          omega
        · exact keep x (List.mem_append_right _ (List.mem_cons_of_mem _ hin)) hxa
  · show (pre ++ { b with frees := b.frees + 1 } :: post).Pairwise Apart
    rw [List.pairwise_append, List.pairwise_cons]
    refine ⟨hpre, ⟨fun y hy => hb_post y hy, hpost⟩, ?_⟩
    intro x hx y hy
    rcases List.mem_cons.mp hy with e | e
    · subst e
      intro hz
      simp at hz
    · exact hcross x hx y (List.mem_cons_of_mem _ e)
  · exact h.wild

theorem sizeof_pos : 0 < sizeof_thread_local_pseudostack_t := by decide

/-- A fresh address is not the handle of any thread. -/
theorem fresh_ne_slot (s : State) (h : Inv s) (p : Ptr)
    (hf : Fresh s.blocks p sizeof_thread_local_pseudostack_t) (u : Thread)
    (hu : s.tls u ≠ 0) : s.tls u ≠ p := by
  intro e
  have hc := (h.slot u hu).2.2.2
  have := hf _ hc rfl
  have hpos := sizeof_pos
  rw [e] at this
  simp only [Ptr] at this
  omega

/-- A thread registered as gone with an empty slot keeps the invariant. -/
theorem inv_exited (s s' : State) (t : Thread) (h : Inv s) (ht : s.tls t = 0)
    (e1 : s'.tls = s.tls) (e2 : s'.tls_initialized = s.tls_initialized)
    (e3 : s'.exited = t :: s.exited) (e4 : s'.mem = s.mem) (e5 : s'.blocks = s.blocks)
    (e6 : s'.wild_frees = s.wild_frees) : Inv s' := by
  constructor
  · intro u hu
    rw [e1] at hu
    obtain ⟨a1, a2, a3, a4⟩ := h.slot u hu
    rw [e1, e2, e3, e4, e5]
    refine ⟨a1, ?_, a3, a4⟩
    intro hmem
    rcases List.mem_cons.mp hmem with e | e
    · exact hu (e ▸ ht)
    · exact a2 e
  · intro b hb
    rw [e5] at hb
    rw [e1]
    exact h.block b hb
  · rw [e5]; exact h.apart
  · rw [e6]; exact h.wild

/-- Storing null into an empty slot keeps the invariant. -/
theorem inv_clear_empty (s : State) (t : Thread) (h : Inv s) (ht : s.tls t = 0) :
    Inv (pthread_setspecific s t 0) := by
  have e : (pthread_setspecific s t 0).tls = s.tls := by
    funext u
    simp only [pthread_setspecific, upd]
    split_ifs with hu
    · rw [hu, ht]
    · rfl
  exact h.transfer e (fun x => x) rfl rfl rfl rfl

/-- A block that was allocated at a fresh address and freed at once. -/
theorem inv_alloc_freed (s s' : State) (h : Inv s) (p : Ptr) (v : thread_local_pseudostack_t)
    (o : Option Thread) (hp : p ≠ 0)
    (hf : Fresh s.blocks p sizeof_thread_local_pseudostack_t)
    (e1 : s'.tls = s.tls) (e2 : s'.tls_initialized = s.tls_initialized)
    (e3 : s'.exited = s.exited) (e4 : s'.mem = upd s.mem p v)
    (e5 : s'.blocks = ⟨p, sizeof_thread_local_pseudostack_t, 1, o⟩ :: s.blocks)
    (e6 : s'.wild_frees = s.wild_frees) : Inv s' := by
  constructor
  · intro u hu
    rw [e1] at hu
    obtain ⟨a1, a2, a3, a4⟩ := h.slot u hu
    rw [e1, e2, e3, e4, e5]
    refine ⟨a1, a2, ?_, List.mem_cons_of_mem _ a4⟩
    rw [upd_other _ _ _ _ (fresh_ne_slot s h p hf u hu)]
    exact a3
  · intro b hb
    rw [e5] at hb
    rw [e1]
    rcases List.mem_cons.mp hb with e | e
    · subst e
      exact ⟨hp, rfl, le_refl _, fun hz => by simp at hz⟩
    · exact h.block b e
  · rw [e5, List.pairwise_cons]
    exact ⟨fun b hb hz => hf b hb hz, h.apart⟩
  · rw [e6]; exact h.wild

/-- A block that was allocated at a fresh address and registered for `t`. -/
theorem inv_alloc_registered (s s' : State) (t : Thread) (h : Inv s) (p : Ptr) (hp : p ≠ 0)
    (hf : Fresh s.blocks p sizeof_thread_local_pseudostack_t)
    (ht : s.tls t = 0) (hex : t ∉ s.exited)
    (e1 : s'.tls = upd s.tls t p) (e2 : s'.tls_initialized = true)
    (e3 : s'.exited = s.exited) (e4 : s'.mem = upd s.mem p (fresh_handle t))
    (e5 : s'.blocks = ⟨p, sizeof_thread_local_pseudostack_t, 0, some t⟩ :: s.blocks)
    (e6 : s'.wild_frees = s.wild_frees) : Inv s' := by
  constructor
  · intro u hu
    rw [e1] at hu ⊢
    rw [e2, e3, e4, e5]
    by_cases hut : u = t
    · subst hut
      rw [upd_same, upd_same]
      exact ⟨rfl, hex, rfl, List.mem_cons_self _ _⟩
    · rw [upd_other _ _ _ _ hut] at hu ⊢
      obtain ⟨a1, a2, a3, a4⟩ := h.slot u hu
      refine ⟨rfl, a2, ?_, List.mem_cons_of_mem _ a4⟩
      rw [upd_other _ _ _ _ (fresh_ne_slot s h p hf u hu)]
      exact a3
  · intro b hb
    rw [e5] at hb
    rw [e1]
    rcases List.mem_cons.mp hb with e | e
    · subst e
      exact ⟨hp, rfl, Nat.zero_le _, fun _ => ⟨t, rfl, upd_same _ _ _⟩⟩
    · obtain ⟨b1, b2, b3, b4⟩ := h.block b e
      refine ⟨b1, b2, b3, fun hz => ?_⟩
      obtain ⟨u, hu1, hu2⟩ := b4 hz
      refine ⟨u, hu1, ?_⟩
      have hut : u ≠ t := fun e => b1 (by rw [← hu2, e, ht])
      rw [upd_other _ _ _ _ hut]
      exact hu2
  · rw [e5, List.pairwise_cons]
    exact ⟨fun b hb hz => hf b hb hz, h.apart⟩
  · rw [e6]; exact h.wild

theorem inv_get (s : State) (t : Thread) (env : Env) (h : Inv s)
    (hv : (Op.get t env).valid s) : Inv (get_thread_local_pseudostack s t env).2 := by
  obtain ⟨hex, hfresh⟩ := hv
  have h0 := pthread_once_inv s env.key_create h
  obtain ⟨f1, f2, f3, f4, f5⟩ := pthread_once_frame s env.key_create
  rw [← f4] at hfresh
  rw [← f2] at hex
  simp only [get_thread_local_pseudostack, pthread_getspecific, heap_caps_malloc]
  generalize pthread_once s env.key_create = s0 at *
  generalize hp : env.malloc sizeof_thread_local_pseudostack_t MALLOC_CAP_INTERNAL = p at *
  by_cases hi : s0.tls_initialized = true
  · by_cases hslot : s0.tls t = 0
    · by_cases hp0 : p = 0
      · simp only [hi, hslot, hp0, Bool.not_true, Bool.false_eq_true, ↓reduceIte]
        exact h0.transfer rfl (fun x => x) rfl rfl rfl rfl
      · by_cases hset : env.setspecific = 0
        · simp only [hi, hslot, hp0, hset, Bool.not_true, Bool.false_eq_true, ne_eq,
            not_true_eq_false, not_false_eq_true, ↓reduceIte]
          exact inv_alloc_registered s0 _ t h0 p hp0 (hfresh hp0) hslot hex
            rfl (by simp [esp_log, pthread_setspecific, hi]) rfl rfl rfl rfl
        · simp only [hi, hslot, hp0, hset, Bool.not_true, Bool.false_eq_true, ne_eq,
            not_true_eq_false, not_false_eq_true, ↓reduceIte]
          refine inv_alloc_freed s0 _ h0 p
            { zeroed with owner_task := some t, initialized := true } none hp0 (hfresh hp0)
            ?_ ?_ ?_ ?_ ?_ ?_
          all_goals simp [heap_caps_free, freeIn, hp0, esp_log, hi]
    · simp only [hi, hslot, Bool.not_true, Bool.false_eq_true, ↓reduceIte]
      exact h0
  · simp only [hi, Bool.not_false, Bool.not_eq_true, ↓reduceIte]
    exact h0.transfer rfl (fun x => x) rfl rfl rfl rfl

/-- The heap bookkeeping after a free depends on the heap bookkeeping only. -/
theorem heap_caps_free_heap_congr (s s' : State) (p : Ptr) (hb : s'.blocks = s.blocks)
    (hw : s'.wild_frees = s.wild_frees) :
    (heap_caps_free s' p).blocks = (heap_caps_free s p).blocks ∧
    (heap_caps_free s' p).wild_frees = (heap_caps_free s p).wild_frees := by
  unfold heap_caps_free
  rw [hb]
  split_ifs
  · exact ⟨hb, hw⟩
  · cases freeIn s.blocks p <;> simp [hb, hw]

theorem inv_cleanup (s : State) (t : Thread) (task : TaskHandle_t) (h : Inv s) :
    Inv (cleanup_thread_pseudostack s t task) := by
  simp only [cleanup_thread_pseudostack, pthread_getspecific]
  by_cases h1 : task ≠ none ∧ task ≠ some t
  · rw [if_pos h1]
    exact h.transfer rfl (fun x => x) rfl rfl rfl rfl
  · rw [if_neg h1]
    by_cases h2 : (!s.tls_initialized) = true
    · rw [if_pos h2]
      exact h
    · rw [if_neg h2]
      by_cases h3 : s.tls t ≠ 0
      · rw [if_pos h3]
        have hm := (h.slot t h3).2.2.1
        have hz : ((pthread_setspecific s t 0).mem (s.tls t)).scratch_ptr = 0 := by
          show (s.mem (s.tls t)).scratch_ptr = 0
          rw [hm]; rfl
        rw [if_neg (by rw [hz]; simp)]
        exact inv_release s t h h3
      · rw [if_neg h3]
        exact h

theorem inv_exit (s : State) (t : Thread) (h : Inv s) : Inv (thread_exit s t) := by
  simp only [thread_exit, pthread_getspecific, pseudostack_destructor]
  by_cases h3 : s.tls t = 0
  · rw [if_neg (by simp [h3])]
    exact inv_exited (pthread_setspecific s t 0) _ t (inv_clear_empty s t h h3)
      (by simp [pthread_setspecific, upd]) rfl rfl rfl rfl rfl rfl
  · have hm := (h.slot t h3).2.2.1
    have hz : (s.mem (s.tls t)).scratch_ptr = 0 := by rw [hm]; rfl
    rw [if_pos h3, if_pos h3]
    have hz2 : ¬ (({ pthread_setspecific s t 0 with exited := t :: s.exited } : State).mem
        (s.tls t)).scratch_ptr ≠ 0 := by
      show ¬ (s.mem (s.tls t)).scratch_ptr ≠ 0
      rw [hz]; simp
    rw [if_neg hz2]
    have hr := inv_release s t h h3
    have hc := heap_caps_free_heap_congr (pthread_setspecific s t 0)
      { pthread_setspecific s t 0 with exited := t :: s.exited } (s.tls t) rfl rfl
    refine inv_exited _ _ t hr ?_ ?_ ?_ ?_ ?_ hc.1 hc.2
    · simp [pthread_setspecific, upd]
    · simp
    · simp
    · simp [pthread_setspecific]
    · simp

theorem inv_step (s : State) (o : Op) (h : Inv s) (hv : o.valid s) : Inv (step s o) := by
  cases o with
  | get t env => exact inv_get s t env h hv
  | cleanup t task => exact inv_cleanup s t task h
  | exit t => exact inv_exit s t h

theorem inv_run (ops : List Op) (s : State) (h : Inv s) (hv : Valid s ops) :
    Inv (run s ops) := by
  induction ops generalizing s with
  | nil => exact h
  | cons o ops ih => exact ih (step s o) (inv_step s o h hv.1) hv.2

/-! ## C3: every handle is freed exactly once -/

/-- C3: after every well-formed sequence of `get_thread_local_pseudostack`,
`cleanup_thread_pseudostack` and thread-exit steps from the initial state,
no allocation has been freed more than once (manual cleanup and the
thread-exit destructor never both free a handle), no free has missed the
heap, and every handle that was registered for a thread which has exited has
been freed exactly once. -/
theorem handle_freed_exactly_once (ops : List Op) (hv : Valid init ops) :
    (∀ b ∈ (run init ops).blocks, b.frees ≤ 1) ∧
    (run init ops).wild_frees = 0 ∧
    (∀ b ∈ (run init ops).blocks, ∀ t, b.owner = some t →
      t ∈ (run init ops).exited → b.frees = 1) := by
  have h := inv_run ops init init_inv hv
  refine ⟨fun b hb => (h.block b hb).2.2.1, h.wild, ?_⟩
  intro b hb t hown hex
  obtain ⟨b1, b2, b3, b4⟩ := h.block b hb
  by_cases hz : b.frees = 0
  · exfalso
    obtain ⟨u, hu1, hu2⟩ := b4 hz
    have hut : u = t := by
      rw [hown] at hu1
      exact (Option.some.inj hu1).symm
    subst hut
    exact (h.slot u (by rw [hu2]; exact b1)).2.1 hex
  · omega

/-- C3 on a trace with two threads, one of which cleans up by hand before it
exits. -/
theorem handle_freed_exactly_once_witness :
    Valid init two_thread_trace ∧
    ((∀ b ∈ (run init two_thread_trace).blocks, b.frees ≤ 1) ∧
    (run init two_thread_trace).wild_frees = 0 ∧
    (∀ b ∈ (run init two_thread_trace).blocks, ∀ t, b.owner = some t →
      t ∈ (run init two_thread_trace).exited → b.frees = 1)) :=
  ⟨by decide, handle_freed_exactly_once two_thread_trace (by decide)⟩

/-! ## C4: handles of different threads -/

theorem registered_live_le_one (s : State) (h : Inv s) (t : Thread) :
    (registered_live s t).length ≤ 1 := by
  have hpw : (registered_live s t).Pairwise Apart := h.apart.filter _
  have hall : ∀ x ∈ registered_live s t,
      x.frees = 0 ∧ x.addr = s.tls t ∧ x.size = sizeof_thread_local_pseudostack_t := by
    intro x hx
    simp only [registered_live, List.mem_filter, decide_eq_true_eq] at hx
    obtain ⟨hx1, hx2, hx3⟩ := hx
    obtain ⟨b1, b2, b3, b4⟩ := h.block x hx1
    obtain ⟨u, hu1, hu2⟩ := b4 hx2
    have hut : u = t := by
      rw [hx3] at hu1
      exact (Option.some.inj hu1).symm
    subst hut
    exact ⟨hx2, hu2.symm, b2⟩
  match hl : registered_live s t with
  | [] => simp
  | [_] => simp
  | a :: b :: rest =>
    exfalso
    rw [hl] at hpw hall
    have ha := hall a (by simp)
    have hb := hall b (by simp)
    have hab := (List.pairwise_cons.mp hpw).1 b (by simp) hb.1
    have hpos := sizeof_pos
    rw [ha.2.1, ha.2.2, hb.2.1, hb.2.2] at hab
    simp only [Ptr] at hab
    omega

/-- C4: in every state reachable by well-formed steps each thread has at most
one allocated registered handle, and the handles of two different threads
are different pointers to non-overlapping structures, neither of which
refers to a buffer (both `scratch_ptr` are null, so no buffer memory is
shared). -/
theorem handles_never_shared (ops : List Op) (hv : Valid init ops) :
    (∀ t, (registered_live (run init ops) t).length ≤ 1) ∧
    (∀ t1 t2, t1 ≠ t2 → (run init ops).tls t1 ≠ 0 → (run init ops).tls t2 ≠ 0 →
      (run init ops).tls t1 ≠ (run init ops).tls t2 ∧
      ((run init ops).tls t1 + sizeof_thread_local_pseudostack_t ≤ (run init ops).tls t2 ∨
        (run init ops).tls t2 + sizeof_thread_local_pseudostack_t
          ≤ (run init ops).tls t1) ∧
      ((run init ops).mem ((run init ops).tls t1)).scratch_ptr = 0 ∧
      ((run init ops).mem ((run init ops).tls t2)).scratch_ptr = 0) := by
  have h := inv_run ops init init_inv hv
  refine ⟨fun t => registered_live_le_one _ h t, ?_⟩
  intro t1 t2 hne h1 h2
  generalize run init ops = s at *
  obtain ⟨_, _, m1, c1⟩ := h.slot t1 h1
  obtain ⟨_, _, m2, c2⟩ := h.slot t2 h2
  have hsym : Symmetric (fun a b : Block => a.frees = 0 → b.frees = 0 →
      a.addr + a.size ≤ b.addr ∨ b.addr + b.size ≤ a.addr) := by
    intro a b hab hb ha
    exact (hab ha hb).symm
  have hpw : s.blocks.Pairwise (fun a b : Block => a.frees = 0 → b.frees = 0 →
      a.addr + a.size ≤ b.addr ∨ b.addr + b.size ≤ a.addr) :=
    h.apart.imp (fun hab _ hb => hab hb)
  have hd := hpw.forall hsym c1 c2
    (by simp only [ne_eq, Block.mk.injEq, Option.some.injEq, not_and]
        intro _ _ _
        exact hne) rfl rfl
  have hpos := sizeof_pos
  simp only [Ptr] at hd
  refine ⟨?_, hd, by rw [m1]; rfl, by rw [m2]; rfl⟩
  intro e
  rw [e] at hd
  omega

/-- C4 on a trace in which two threads hold handles at the same time. -/
theorem handles_never_shared_witness :
    Valid init two_holders_trace ∧
    (run init two_holders_trace).tls 1 ≠ (run init two_holders_trace).tls 2 :=
  ⟨by decide,
    ((handles_never_shared two_holders_trace (by decide)).2 1 2
      (by decide) (by decide) (by decide)).1⟩

/-! ## C8: what a registered handle looks like -/

/-- C8 fails as stated: after the first `get_thread_local_pseudostack()` of
thread 1 the registered handle is marked initialized although its
`scratch_ptr` is null; no buffer was allocated before the flag was set. -/
theorem ready_handle_without_buffer :
    Valid init [Op.get 1 (env_at 0x3FFB0000)] ∧
    (get_thread_local_pseudostack init 1 (env_at 0x3FFB0000)).1 = 0x3FFB0000 ∧
    (run init [Op.get 1 (env_at 0x3FFB0000)]).tls 1 = 0x3FFB0000 ∧
    ((run init [Op.get 1 (env_at 0x3FFB0000)]).mem 0x3FFB0000).initialized = true ∧
    ((run init [Op.get 1 (env_at 0x3FFB0000)]).mem 0x3FFB0000).scratch_ptr = 0 ∧
    (run init [Op.get 1 (env_at 0x3FFB0000)]).blocks
      = [⟨0x3FFB0000, sizeof_thread_local_pseudostack_t, 0, some 1⟩] := by
  decide

/-- C8 as amended: in every state reachable by well-formed steps a registered
handle is an allocated structure that is marked initialized, is owned by its
thread and has null `scratch_ptr` and `global_stack`: the core allocates no
buffer, so no operation of the core reallocates one (the field is the same
null after every further step that leaves the handle registered). -/
theorem registered_handle_shape (ops : List Op) (hv : Valid init ops) (t : Thread)
    (ht : (run init ops).tls t ≠ 0) :
    (run init ops).mem ((run init ops).tls t)
      = { scratch_ptr := 0, global_stack := 0, initialized := true, owner_task := some t } ∧
    (⟨(run init ops).tls t, sizeof_thread_local_pseudostack_t, 0, some t⟩ : Block)
      ∈ (run init ops).blocks ∧
    (∀ o : Op, o.valid (run init ops) → (step (run init ops) o).tls t ≠ 0 →
      ((step (run init ops) o).mem ((step (run init ops) o).tls t)).scratch_ptr
        = ((run init ops).mem ((run init ops).tls t)).scratch_ptr) := by
  have h := inv_run ops init init_inv hv
  obtain ⟨_, _, m1, c1⟩ := h.slot t ht
  refine ⟨m1, c1, ?_⟩
  intro o ho ht2
  have h2 := inv_step _ o h ho
  rw [(h2.slot t ht2).2.2.1, m1]

/-- The amended C8 on the trace in which two threads hold handles. -/
theorem registered_handle_shape_witness :
    Valid init two_holders_trace ∧ (run init two_holders_trace).tls 2 ≠ 0 ∧
    (run init two_holders_trace).mem ((run init two_holders_trace).tls 2)
      = { scratch_ptr := 0, global_stack := 0, initialized := true, owner_task := some 2 } :=
  ⟨by decide, by decide,
    (registered_handle_shape two_holders_trace (by decide) 2 (by decide)).1⟩

/-! ## C9: where a new handle comes from -/

/-- C9 fails as stated: with setup done and no handle for thread 2, a platform
whose SPIRAM pool can serve the request (so that `opus_alloc` succeeds) but
whose internal pool cannot makes `get_thread_local_pseudostack()` fail. -/
theorem get_ignores_spiram_pool :
    ready_state.once_done = true ∧ ready_state.tls_initialized = true ∧
    ready_state.tls 2 = 0 ∧
    (opus_alloc ready_state env_spiram_only sizeof_thread_local_pseudostack_t).1
      = 0x3C000000 ∧
    (get_thread_local_pseudostack ready_state 2 env_spiram_only).1 = 0 ∧
    (get_thread_local_pseudostack ready_state 2 env_spiram_only).2.tls 2 = 0 := by
  decide

/-- C9 as amended: with setup done and no handle for the calling thread, the
new handle is requested from the internal pool alone
(`heap_caps_malloc(sizeof, MALLOC_CAP_INTERNAL)`, not `opus_alloc`); the call
returns a new registered handle exactly when that allocation and
`pthread_setspecific` both succeed, and otherwise returns null with the
registry unchanged and no block left allocated. -/
theorem get_allocates_internal_only (s : State) (t : Thread) (env : Env)
    (h1 : s.once_done = true) (h2 : s.tls_initialized = true) (h3 : s.tls t = 0) :
    ((get_thread_local_pseudostack s t env).1 ≠ 0 ↔
      env.malloc sizeof_thread_local_pseudostack_t MALLOC_CAP_INTERNAL ≠ 0 ∧
      env.setspecific = 0) ∧
    ((get_thread_local_pseudostack s t env).1 ≠ 0 →
      (get_thread_local_pseudostack s t env).1
        = env.malloc sizeof_thread_local_pseudostack_t MALLOC_CAP_INTERNAL ∧
      (get_thread_local_pseudostack s t env).2.tls
        = upd s.tls t (get_thread_local_pseudostack s t env).1 ∧
      (get_thread_local_pseudostack s t env).2.blocks
        = ⟨(get_thread_local_pseudostack s t env).1, sizeof_thread_local_pseudostack_t, 0,
            some t⟩ :: s.blocks) ∧
    ((get_thread_local_pseudostack s t env).1 = 0 →
      (get_thread_local_pseudostack s t env).2.tls = s.tls ∧
      ((get_thread_local_pseudostack s t env).2.blocks = s.blocks ∨
        (get_thread_local_pseudostack s t env).2.blocks
          = ⟨env.malloc sizeof_thread_local_pseudostack_t MALLOC_CAP_INTERNAL,
              sizeof_thread_local_pseudostack_t, 1, none⟩ :: s.blocks)) := by
  simp only [get_thread_local_pseudostack, pthread_once, pthread_getspecific,
    heap_caps_malloc, h1, h2, h3, Bool.not_true, Bool.false_eq_true, ↓reduceIte]
  generalize env.malloc sizeof_thread_local_pseudostack_t MALLOC_CAP_INTERNAL = p
  by_cases hp : p = 0
  · simp [hp, esp_log]
  · by_cases hs : env.setspecific = 0
    · simp [hp, hs, esp_log, pthread_setspecific, mark_owner]
    · simp [hp, hs, esp_log, heap_caps_free, freeIn]

/-- The amended C9 in the state where thread 1 holds a handle and thread 2
asks for one. -/
theorem get_allocates_internal_only_witness :
    (get_thread_local_pseudostack ready_state 2 (env_at 0x3FFB0010)).1 ≠ 0 ↔
      (env_at 0x3FFB0010).malloc sizeof_thread_local_pseudostack_t MALLOC_CAP_INTERNAL ≠ 0 ∧
      (env_at 0x3FFB0010).setspecific = 0 :=
  (get_allocates_internal_only ready_state 2 (env_at 0x3FFB0010)
    (by decide) (by decide) (by decide)).1

/-! ## C7: manual release and re-acquisition -/

/-- With the key created and an empty slot, a call whose allocation and
registration succeed creates a new handle. -/
theorem get_creates (s : State) (t : Thread) (env : Env)
    (h2 : s.tls_initialized = true) (h3 : s.tls t = 0)
    (hm : env.malloc sizeof_thread_local_pseudostack_t MALLOC_CAP_INTERNAL ≠ 0)
    (hs : env.setspecific = 0) :
    (get_thread_local_pseudostack s t env).1
      = env.malloc sizeof_thread_local_pseudostack_t MALLOC_CAP_INTERNAL ∧
    (get_thread_local_pseudostack s t env).2.tls
      = upd s.tls t (env.malloc sizeof_thread_local_pseudostack_t MALLOC_CAP_INTERNAL) ∧
    (get_thread_local_pseudostack s t env).2.mem
      = upd s.mem (env.malloc sizeof_thread_local_pseudostack_t MALLOC_CAP_INTERNAL)
          (fresh_handle t) ∧
    (get_thread_local_pseudostack s t env).2.blocks
      = ⟨env.malloc sizeof_thread_local_pseudostack_t MALLOC_CAP_INTERNAL,
          sizeof_thread_local_pseudostack_t, 0, some t⟩ :: s.blocks := by
  simp only [get_thread_local_pseudostack, pthread_once, init_pthread_key, esp_log,
    pthread_getspecific, heap_caps_malloc, pthread_setspecific, mark_owner]
  split_ifs <;> simp_all [fresh_handle, zeroed]

/-- The manual path for the caller's own handle, with the three guards
resolved. -/
theorem cleanup_own (s : State) (A : Thread) (task : TaskHandle_t)
    (htask : task = none ∨ task = some A) (hi : s.tls_initialized = true)
    (hh : s.tls A ≠ 0) :
    cleanup_thread_pseudostack s A task
      = heap_caps_free
          (if (s.mem (s.tls A)).scratch_ptr ≠ 0 then
            esp_log (heap_caps_free (pthread_setspecific s A 0) (s.mem (s.tls A)).scratch_ptr)
              Diag.D_manually_freed
          else pthread_setspecific s A 0)
          (s.tls A) := by
  have h1 : ¬ (task ≠ none ∧ task ≠ some A) := by
    rcases htask with e | e <;> simp [e]
  simp only [cleanup_thread_pseudostack, pthread_getspecific]
  rw [if_neg h1, if_neg (by simp [hi]), if_pos hh]
  rfl

/-- C7 fails as stated: thread 1 releases its handle by hand and asks again;
the allocation succeeds, `pthread_setspecific` reports `ENOMEM`, and the call
returns null with nothing registered (the new structure is freed again). -/
theorem reacquire_fails_when_registration_fails :
    ready_state.tls_initialized = true ∧ ready_state.tls 1 = 0x3FFB0000 ∧
    (cleanup_thread_pseudostack ready_state 1 (some 1)).tls 1 = 0 ∧
    (env_setspecific_enomem 0x3FFB0020).malloc sizeof_thread_local_pseudostack_t
      MALLOC_CAP_INTERNAL = 0x3FFB0020 ∧
    (get_thread_local_pseudostack (cleanup_thread_pseudostack ready_state 1 (some 1)) 1
      (env_setspecific_enomem 0x3FFB0020)).1 = 0 ∧
    (get_thread_local_pseudostack (cleanup_thread_pseudostack ready_state 1 (some 1)) 1
      (env_setspecific_enomem 0x3FFB0020)).2.tls 1 = 0 ∧
    (get_thread_local_pseudostack (cleanup_thread_pseudostack ready_state 1 (some 1)) 1
      (env_setspecific_enomem 0x3FFB0020)).2.blocks
      = [⟨0x3FFB0020, sizeof_thread_local_pseudostack_t, 1, none⟩,
         ⟨0x3FFB0000, sizeof_thread_local_pseudostack_t, 1, some 1⟩] := by
  decide

/-- A free of a non-null pointer is appended to the call history. -/
theorem heap_caps_free_calls (s : State) (p : Ptr) (hp : p ≠ 0) :
    (heap_caps_free s p).calls = s.calls ++ [Call.free p] := by
  unfold heap_caps_free
  rw [if_neg hp]
  split <;> rfl

/-- C7 as amended: for a thread `A` that holds a handle,
`cleanup_thread_pseudostack` called from `A` with its own identity or with
null first clears the slot of `A`, then frees the buffer if it is non-null
and then the structure (the calls appended to the history are, in this
order, the slot write, the free of the buffer if there is one, the free of
the handle; the heap bookkeeping is that of these frees), leaving the slot
empty; a following `get_thread_local_pseudostack()` from `A` whose allocation
and `pthread_setspecific` both succeed returns a newly allocated handle that
is registered for `A`, zeroed, marked initialized and owned by `A`. -/
theorem cleanup_then_get_creates (s : State) (A : Thread) (task : TaskHandle_t) (env : Env)
    (htask : task = none ∨ task = some A) (hi : s.tls_initialized = true)
    (hh : s.tls A ≠ 0)
    (hm : env.malloc sizeof_thread_local_pseudostack_t MALLOC_CAP_INTERNAL ≠ 0)
    (hs : env.setspecific = 0) :
    (cleanup_thread_pseudostack s A task).calls
      = s.calls ++ Call.setspecific A 0 ::
          ((if (s.mem (s.tls A)).scratch_ptr ≠ 0 then
              [Call.free (s.mem (s.tls A)).scratch_ptr]
            else []) ++ [Call.free (s.tls A)]) ∧
    (cleanup_thread_pseudostack s A task).blocks
      = (heap_caps_free (heap_caps_free s (s.mem (s.tls A)).scratch_ptr) (s.tls A)).blocks ∧
    (cleanup_thread_pseudostack s A task).wild_frees
      = (heap_caps_free (heap_caps_free s (s.mem (s.tls A)).scratch_ptr)
          (s.tls A)).wild_frees ∧
    (cleanup_thread_pseudostack s A task).tls A = 0 ∧
    (∀ u, u ≠ A → (cleanup_thread_pseudostack s A task).tls u = s.tls u) ∧
    (get_thread_local_pseudostack (cleanup_thread_pseudostack s A task) A env).1
      = env.malloc sizeof_thread_local_pseudostack_t MALLOC_CAP_INTERNAL ∧
    (get_thread_local_pseudostack (cleanup_thread_pseudostack s A task) A env).2.tls A
      = env.malloc sizeof_thread_local_pseudostack_t MALLOC_CAP_INTERNAL ∧
    (get_thread_local_pseudostack (cleanup_thread_pseudostack s A task) A env).2.mem
        (env.malloc sizeof_thread_local_pseudostack_t MALLOC_CAP_INTERNAL)
      = { scratch_ptr := 0, global_stack := 0, initialized := true, owner_task := some A } ∧
    (get_thread_local_pseudostack (cleanup_thread_pseudostack s A task) A env).2.blocks
      = ⟨env.malloc sizeof_thread_local_pseudostack_t MALLOC_CAP_INTERNAL,
          sizeof_thread_local_pseudostack_t, 0, some A⟩
        :: (cleanup_thread_pseudostack s A task).blocks := by
  have hc := cleanup_own s A task htask hi hh
  have htls : (cleanup_thread_pseudostack s A task).tls = upd s.tls A 0 := by
    rw [hc]
    split_ifs <;> simp [esp_log, pthread_setspecific]
  have hini : (cleanup_thread_pseudostack s A task).tls_initialized = true := by
    rw [hc]
    split_ifs <;> simp [esp_log, pthread_setspecific, hi]
  have hA : (cleanup_thread_pseudostack s A task).tls A = 0 := by
    rw [htls, upd_same]
  have hcalls : (cleanup_thread_pseudostack s A task).calls
      = s.calls ++ Call.setspecific A 0 ::
          ((if (s.mem (s.tls A)).scratch_ptr ≠ 0 then
              [Call.free (s.mem (s.tls A)).scratch_ptr]
            else []) ++ [Call.free (s.tls A)]) := by
    rw [hc, heap_caps_free_calls _ _ hh]
    by_cases hb : (s.mem (s.tls A)).scratch_ptr ≠ 0
    · rw [if_pos hb, if_pos hb]
      show (heap_caps_free (pthread_setspecific s A 0) (s.mem (s.tls A)).scratch_ptr).calls
        ++ [Call.free (s.tls A)] = _
      rw [heap_caps_free_calls _ _ hb]
      simp [pthread_setspecific]
    · rw [if_neg hb, if_neg hb]
      simp [pthread_setspecific]
  have hheap : (cleanup_thread_pseudostack s A task).blocks
        = (heap_caps_free (heap_caps_free s (s.mem (s.tls A)).scratch_ptr)
            (s.tls A)).blocks ∧
      (cleanup_thread_pseudostack s A task).wild_frees
        = (heap_caps_free (heap_caps_free s (s.mem (s.tls A)).scratch_ptr)
            (s.tls A)).wild_frees := by
    rw [hc]
    apply heap_caps_free_heap_congr
    · by_cases hb : (s.mem (s.tls A)).scratch_ptr ≠ 0
      · rw [if_pos hb]
        exact (heap_caps_free_heap_congr s (pthread_setspecific s A 0) _ rfl rfl).1
      · rw [if_neg hb]
        have hz : (s.mem (s.tls A)).scratch_ptr = 0 := not_not.mp hb
        rw [hz]
        rfl
    · by_cases hb : (s.mem (s.tls A)).scratch_ptr ≠ 0
      · rw [if_pos hb]
        exact (heap_caps_free_heap_congr s (pthread_setspecific s A 0) _ rfl rfl).2
      · rw [if_neg hb]
        have hz : (s.mem (s.tls A)).scratch_ptr = 0 := not_not.mp hb
        rw [hz]
        rfl
  obtain ⟨g1, g2, g3, g4⟩ := get_creates _ A env hini hA hm hs
  refine ⟨hcalls, hheap.1, hheap.2, hA, ?_, g1, ?_, ?_, g4⟩
  · intro u hu
    rw [htls, upd_other _ _ _ _ hu]
  · rw [g2, upd_same]
  · rw [g3, upd_same]
    rfl

/-- The amended C7 for thread 1 holding the handle at `0x3FFB0000` with a
buffer at `0x3C000000`: the slot is cleared, then the buffer is freed, then
the handle; both blocks end up freed once, and the next call creates a
handle. -/
theorem cleanup_then_get_creates_witness :
    (cleanup_thread_pseudostack buffered_state 1 none).calls
      = buffered_state.calls
        ++ [Call.setspecific 1 0, Call.free 0x3C000000, Call.free 0x3FFB0000] ∧
    (cleanup_thread_pseudostack buffered_state 1 none).blocks
      = [⟨0x3C000000, 120000, 1, none⟩,
         ⟨0x3FFB0000, sizeof_thread_local_pseudostack_t, 1, some 1⟩] ∧
    (cleanup_thread_pseudostack buffered_state 1 none).tls 1 = 0 ∧
    (get_thread_local_pseudostack (cleanup_thread_pseudostack buffered_state 1 none) 1
      (env_at 0x3FFB0000)).1 = 0x3FFB0000 :=
  ⟨(cleanup_then_get_creates buffered_state 1 none (env_at 0x3FFB0000) (Or.inl rfl)
      (by decide) (by decide) (by decide) (by decide)).1,
   by decide,
   (cleanup_then_get_creates buffered_state 1 none (env_at 0x3FFB0000) (Or.inl rfl)
      (by decide) (by decide) (by decide) (by decide)).2.2.2.1,
   (cleanup_then_get_creates buffered_state 1 none (env_at 0x3FFB0000) (Or.inl rfl)
      (by decide) (by decide) (by decide) (by decide)).2.2.2.2.2.1⟩

/-! ## Instances of C2, C5 and C6 -/

/-- C2 for thread 1 while thread 2 acquires and releases a handle in between. -/
theorem get_twice_same_handle_witness :
    get_thread_local_pseudostack
        (run (get_thread_local_pseudostack init 1 (env_at 0x3FFB0000)).2
          [Op.get 2 (env_at 0x3FFB0010), Op.cleanup 2 none, Op.exit 2]) 1
        (env_at 0x3FFB0020)
      = ((get_thread_local_pseudostack init 1 (env_at 0x3FFB0000)).1,
          run (get_thread_local_pseudostack init 1 (env_at 0x3FFB0000)).2
            [Op.get 2 (env_at 0x3FFB0010), Op.cleanup 2 none, Op.exit 2]) :=
  get_twice_same_handle init 1 (env_at 0x3FFB0000) (by decide)
    [Op.get 2 (env_at 0x3FFB0010), Op.cleanup 2 none, Op.exit 2] (by decide)
    (env_at 0x3FFB0020)

/-- C5 when the first caller meets `ENOMEM` and two threads try again later. -/
theorem setup_failure_is_permanent_witness :
    (get_thread_local_pseudostack
      (run (get_thread_local_pseudostack init 1 env_key_enomem).2
        [Op.get 2 (env_at 0x3FFB0000), Op.cleanup 2 none]) 1 (env_at 0x3FFB0000)).1 = 0 :=
  (setup_failure_is_permanent 1 env_key_enomem (by decide)
    [Op.get 2 (env_at 0x3FFB0000), Op.cleanup 2 none] 1 (env_at 0x3FFB0000)).2.1

/-- C6 for thread 2 aiming at the handle of thread 1. -/
theorem cleanup_foreign_rejected_witness :
    (cleanup_thread_pseudostack ready_state 2 (some 1)).tls = ready_state.tls ∧
    (cleanup_thread_pseudostack ready_state 2 (some 1)).blocks = ready_state.blocks :=
  ⟨(cleanup_foreign_rejected ready_state 2 1 (by decide)).2.2.2.1,
   (cleanup_foreign_rejected ready_state 2 1 (by decide)).2.1⟩

end OpusTls
